import Mathlib

/-!
Verification of the geode-cli indexer (src/indexer.rs).

A shallow embedding of the indexer subcommand of geode-cli.  The indexer
manages a local clone of a package-index git repository: it can be
initialized (cloned from a fork), it lists package entries, exports a
packaged mod into an entry directory, and removes entries.  Every mutating
operation squashes the branch history down to the root commit plus one new
tip commit holding the whole working tree.

The filesystem under the indexer root is modelled as an association list of
named nodes (files or one-level directories of files); the git branch is
modelled as a commit value carrying its message, its tree snapshot, and its
parent commits.  Fatal errors (the Rust code aborts the process) are
modelled with `Except`, the error carrying the on-disk state left behind at
the moment of the abort.
-/

namespace GeodeIndexer

/-- File contents, as raw bytes. -/
abbrev Bytes := List Nat

/-- A node directly inside the indexer root: either a plain file or an
entry directory containing named files. -/
inductive Node where
  | file (content : Bytes)
  | dir (files : List (String × Bytes))
  deriving DecidableEq, Repr

/-- The immediate children of the indexer root directory, by name. -/
abbrev FS := List (String × Node)

/-- Look up the value bound to a key in an association list. -/
def findVal {α : Type} : List (String × α) → String → Option α
  | [], _ => none
  | (k', v) :: t, k => if k' = k then some v else findVal t k

/-- Bind a key to a value in an association list, replacing the first
existing binding or appending a fresh one. -/
def setVal {α : Type} : List (String × α) → String → α → List (String × α)
  | [], k, v => [(k, v)]
  | (k', v') :: t, k, v =>
    if k' = k then (k, v) :: t else (k', v') :: setVal t k v

/-- The keys of an association list are pairwise distinct (true of any real
directory listing). -/
def keysNodup {α : Type} (l : List (String × α)) : Prop :=
  (l.map Prod.fst).Nodup

instance {α : Type} (l : List (String × α)) : Decidable (keysNodup l) := by
  unfold keysNodup; infer_instance

/-- Splitting a character list at every occurrence of a separator, after
Rust `str::split`: the result is never empty, and splitting the empty
string yields one empty segment. -/
def rsSplit (sep : Char) : List Char → List (List Char)
  | [] => [[]]
  | c :: cs =>
    if c = sep then [] :: rsSplit sep cs
    else
      match rsSplit sep cs with
      | [] => [[c]]
      | g :: gs => (c :: g) :: gs

/-- The major-version derivation of `export_mod`
(src/indexer.rs:124-134): split the version string on a dot, take the
first segment, and drop every literal letter v from it. -/
def majorVersion (s : String) : String :=
  String.mk (((rsSplit '.' s.toList).headD []).filter (fun c => ¬ c = 'v'))

/-- A commit of the index repository: its message, the tree it snapshots,
and its parents.  A root commit has no parents; any other commit has a
first parent and possibly further parents. -/
inductive Commit where
  | root (msg : String) (tree : FS)
  | child (msg : String) (tree : FS) (parent : Commit) (rest : List Commit)
  deriving Repr

/-- The parent list of a commit (in order, first parent first). -/
def Commit.parents : Commit → List Commit
  | .root _ _ => []
  | .child _ _ p r => p :: r

/-- The tree snapshot recorded in a commit. -/
def Commit.tree : Commit → FS
  | .root _ t => t
  | .child _ t _ _ => t

/-- The commit message. -/
def Commit.msg : Commit → String
  | .root m _ => m
  | .child m _ _ _ => m

/-- The first-parent walk of `reset_and_commit` (src/indexer.rs:40-42):
follow parent 0 while the commit has any parent, ending at the root. -/
def firstParentWalk : Commit → Commit
  | .root m t => .root m t
  | .child _ _ p _ => firstParentWalk p

/-- The first-parent history of the branch counted from the tip: the tip,
then the first-parent history of its first parent. -/
def firstParentChain : Commit → List Commit
  | .root m t => [.root m t]
  | .child m t p r => .child m t p r :: firstParentChain p

/-- The whole state the indexer touches: whether the indexer directory
exists, the children of the indexer root, the branch tip of the clone, and
whether its HEAD is detached. -/
structure IndexerState where
  inited : Bool
  rootDir : FS
  repoHead : Commit
  detached : Bool

/-- The failure conditions of the indexer, each of which aborts the
process in the Rust source. -/
inductive IxError where
  | notInitialized
  | alreadyInitialized
  | cloneFailed
  | entryNotFound
  | pathNotFound
  | missingVersion
  | versionNotString
  | missingId
  | idNotString
  | detachedHead
  | fsFailure
  deriving DecidableEq, Repr

/-- The outcome of an indexer operation: the new state, or the error
together with the on-disk state left behind by the abort. -/
abbrev IxResult := Except (IxError × IndexerState) IndexerState

/-- The squash of `reset_and_commit` (src/indexer.rs:33-54): refuse a
detached HEAD, walk first parents from the tip to the root, soft-reset to
the root, stage the whole working tree, and commit it with the given
message as a single child of the root. -/
def reset_and_commit (st : IndexerState) (msg : String) : IxResult :=
  if st.detached then .error (.detachedHead, st)
  else
    let rootCommit := firstParentWalk st.repoHead
    .ok { st with repoHead := .child msg st.rootDir rootCommit [] }

/-- What a successful `git clone` of the fork produces: a working tree and
the branch tip of the cloned history. -/
structure CloneResult where
  tree : FS
  head : Commit

/-- The `Init` subcommand (src/indexer.rs:56-70): if the indexer path
already exists, warn and exit without touching anything; otherwise clone
the fork URL into the indexer path (aborting if the clone fails).  The
clone outcome stands in for the network interaction. -/
def initIndexer (st : IndexerState) (cloned : Option CloneResult) : IxResult :=
  if st.inited then .error (.alreadyInitialized, st)
  else
    match cloned with
    | none => .error (.cloneFailed, st)
    | some c => .ok { inited := true, rootDir := c.tree, repoHead := c.head, detached := false }

/-- The `List` subcommand (src/indexer.rs:72-87): require the indexer to
exist, then print the name of every immediate child of the indexer root
that is a directory and contains a file named mod.geode. -/
def list_mods (st : IndexerState) : Except (IxError × IndexerState) (List String) :=
  if !st.inited then .error (.notInitialized, st)
  else
    .ok ((st.rootDir.filter (fun p =>
      match p.2 with
      | .dir files => (findVal files "mod.geode").isSome
      | .file _ => false)).map Prod.fst)

/-- The `Remove` subcommand (src/indexer.rs:89-108): require the indexer
to exist, resolve the child named by the given id, abort with "does not
exist" when there is none, delete the directory recursively (the deletion
aborts when the child is a plain file), and squash-commit the message
"Remove id". -/
def remove_mod (st : IndexerState) (id : String) : IxResult :=
  if !st.inited then .error (.notInitialized, st)
  else
    match findVal st.rootDir id with
    | none => .error (.entryNotFound, st)
    | some (.file _) => .error (.fsFailure, st)
    | some (.dir _) =>
      let st' := { st with rootDir := st.rootDir.filter (fun p => ¬ p.1 = id) }
      reset_and_commit st' ("Remove " ++ id)

/-- A mod.json value as far as the indexer inspects it: a string or
anything else. -/
inductive JValue where
  | str (s : String)
  | other
  deriving DecidableEq, Repr

/-- A .geode package archive on disk: the raw bytes of the archive file
and the mod.json document parsed out of it (an association of keys to
values). -/
structure Package where
  bytes : Bytes
  modJson : List (String × JValue)

/-- The `Export` subcommand (src/indexer.rs:110-157): require the indexer
to exist and the package path to exist; read mod.json out of the archive;
derive the major version from the version field and the mod id from the id
field, aborting when either is missing or not a string; create the entry
directory named id, an at sign, and the major version unless it already
exists (copying into a plain file of that name aborts); copy the archive
into it as mod.geode; and squash-commit the message "Add/Update id". -/
def export_mod (st : IndexerState) (package : Option Package) : IxResult :=
  if !st.inited then .error (.notInitialized, st)
  else
    match package with
    | none => .error (.pathNotFound, st)
    | some pkg =>
      match findVal pkg.modJson "version" with
      | none => .error (.missingVersion, st)
      | some .other => .error (.versionNotString, st)
      | some (.str vstr) =>
        let major_version := majorVersion vstr
        match findVal pkg.modJson "id" with
        | none => .error (.missingId, st)
        | some .other => .error (.idNotString, st)
        | some (.str mod_id) =>
          let dirName := mod_id ++ "@" ++ major_version
          match findVal st.rootDir dirName with
          | some (.file _) => .error (.fsFailure, st)
          | some (.dir files) =>
            let st' := { st with
              rootDir := setVal st.rootDir dirName (.dir (setVal files "mod.geode" pkg.bytes)) }
            reset_and_commit st' ("Add/Update " ++ mod_id)
          | none =>
            let st' := { st with
              rootDir := setVal st.rootDir dirName (.dir [("mod.geode", pkg.bytes)]) }
            reset_and_commit st' ("Add/Update " ++ mod_id)

/-- A filesystem path, as its list of components from the root. -/
abbrev RPath := List String

/-- Joining a relative string onto a path, after Rust PathBuf::join for a
relative argument: the string's slash-separated components are appended
verbatim. -/
def pathJoin (base : RPath) (s : String) : RPath :=
  base ++ (rsSplit '/' s.toList).map String.mk

/-- The path `remove_mod` deletes (src/indexer.rs:95): the indexer root
joined with the id exactly as passed, with no validation. -/
def removeModTarget (indexerPath : RPath) (id : String) : RPath :=
  pathJoin indexerPath id

/-- The entry path `export_mod` writes (src/indexer.rs:143): the indexer
root joined with the unvalidated id, an at sign, and the major version. -/
def exportModTarget (indexerPath : RPath) (id major : String) : RPath :=
  pathJoin indexerPath (id ++ "@" ++ major)

/-- Operating-system resolution of a component path: a dot-dot component
pops the previous component, and dot or empty components vanish. -/
def resolvePath (p : RPath) : RPath :=
  p.foldl (fun acc c =>
    if c = ".." then acc.dropLast
    else if c = "." then acc
    else if c = "" then acc
    else acc ++ [c]) []

/-- A path lies inside a root when the root's components are an initial
run of its components. -/
def underRoot (root p : RPath) : Prop :=
  ∃ t, p = root ++ t

/-! ## Helper lemmas -/

theorem rsSplit_ne_nil (sep : Char) : (l : List Char) → ¬ rsSplit sep l = []
  | [] => by simp [rsSplit]
  | c :: cs => by
    simp only [rsSplit]
    split
    · simp
    · split <;> simp

theorem rsSplit_headD (sep : Char) :
    (l : List Char) → (rsSplit sep l).headD [] = l.takeWhile (fun c => ¬ c = sep)
  | [] => rfl
  | c :: cs => by
    rw [List.takeWhile_cons]
    by_cases h : c = sep
    · simp [rsSplit, h]
    · have ih := rsSplit_headD sep cs
      cases eq : rsSplit sep cs with
      | nil => exact absurd eq (rsSplit_ne_nil sep cs)
      | cons g gs =>
        rw [eq] at ih
        simp only [rsSplit, if_neg h, eq]
        simp only [List.headD, h, if_neg, decide_not, Bool.not_false, decide_eq_false_iff_not,
          not_false_eq_true, List.headD_cons]
        simp only [List.headD_cons] at ih
        simpa using ih

theorem findVal_setVal_self {α : Type} (k : String) (v : α) :
    (l : List (String × α)) → findVal (setVal l k v) k = some v
  | [] => by simp [setVal, findVal]
  | (k', v') :: t => by
    by_cases h : k' = k
    · simp [setVal, findVal, h]
    · simp [setVal, findVal, h, findVal_setVal_self k v t]

theorem findVal_setVal_ne {α : Type} (k k' : String) (v : α) (h : ¬ k' = k) :
    (l : List (String × α)) → findVal (setVal l k v) k' = findVal l k'
  | [] => by simp [setVal, findVal, Ne.symm h]
  | (a, b) :: t => by
    by_cases ha : a = k
    · subst ha
      simp [setVal, findVal, Ne.symm h]
    · simp [setVal, findVal, ha, findVal_setVal_ne k k' v h t]

theorem setVal_setVal_self {α : Type} (k : String) (v v' : α) :
    (l : List (String × α)) → setVal (setVal l k v) k v' = setVal l k v'
  | [] => by simp [setVal]
  | (a, b) :: t => by
    by_cases ha : a = k
    · simp [setVal, ha]
    · simp [setVal, ha, setVal_setVal_self k v v' t]

theorem findVal_filterKey_self {α : Type} (k : String) :
    (l : List (String × α)) → findVal (l.filter (fun p => ¬ p.1 = k)) k = none
  | [] => rfl
  | (a, b) :: t => by
    by_cases ha : a = k
    · simp [ha]
      simpa using findVal_filterKey_self k t
    · simp [ha, findVal]
      simpa using findVal_filterKey_self k t

theorem findVal_filterKey_ne {α : Type} (k k' : String) (h : ¬ k' = k) :
    (l : List (String × α)) →
      findVal (l.filter (fun p => ¬ p.1 = k)) k' = findVal l k'
  | [] => rfl
  | (a, b) :: t => by
    by_cases ha : a = k
    · subst ha
      simp [findVal, Ne.symm h]
      simpa using findVal_filterKey_ne a k' h t
    · have ih := findVal_filterKey_ne k k' h t
      simp only [decide_not] at ih
      simp [findVal, ha, ih]

theorem firstParentWalk_parents : ∀ c : Commit, (firstParentWalk c).parents = []
  | .root _ _ => rfl
  | .child _ _ p _ => firstParentWalk_parents p

theorem firstParentChain_walk :
    ∀ c : Commit, firstParentChain (firstParentWalk c) = [firstParentWalk c]
  | .root _ _ => rfl
  | .child _ _ p _ => firstParentChain_walk p

theorem firstParentWalk_walk :
    ∀ c : Commit, firstParentWalk (firstParentWalk c) = firstParentWalk c
  | .root _ _ => rfl
  | .child _ _ p _ => firstParentWalk_walk p

theorem reset_and_commit_ok {st st' : IndexerState} {msg : String}
    (h : reset_and_commit st msg = .ok st') :
    st.detached = false ∧
      st' = { st with repoHead := .child msg st.rootDir (firstParentWalk st.repoHead) [] } := by
  unfold reset_and_commit at h
  by_cases hd : st.detached = true
  · rw [if_pos hd] at h
    exact absurd h (by simp)
  · rw [if_neg hd] at h
    exact ⟨by simpa using hd, (Except.ok.inj h).symm⟩

/-- The squashed-history shape left behind by `reset_and_commit`: counted
from the tip, the branch is exactly the new tip followed by the original
root commit, the root (reached by the first-parent walk from the old tip)
has no parents, the new tip has the root as its sole parent, and the new
tip's tree is the current working tree. -/
def squashedHistory (oldHead : Commit) (st' : IndexerState) : Prop :=
  firstParentChain st'.repoHead = [st'.repoHead, firstParentWalk oldHead] ∧
  (firstParentWalk oldHead).parents = [] ∧
  st'.repoHead.parents = [firstParentWalk oldHead] ∧
  st'.repoHead.tree = st'.rootDir

theorem squashedHistory_of_reset {st st' : IndexerState} {msg : String}
    (h : reset_and_commit st msg = .ok st') :
    squashedHistory st.repoHead st' ∧ st'.rootDir = st.rootDir := by
  obtain ⟨-, rfl⟩ := reset_and_commit_ok h
  refine ⟨⟨?_, firstParentWalk_parents _, rfl, rfl⟩, rfl⟩
  show Commit.child msg st.rootDir (firstParentWalk st.repoHead) [] ::
      firstParentChain (firstParentWalk st.repoHead) = _
  rw [firstParentChain_walk]

theorem export_mod_ok_reset {st st' : IndexerState} {p : Option Package}
    (h : export_mod st p = .ok st') :
    ∃ stMid msg, reset_and_commit stMid msg = .ok st' ∧ stMid.repoHead = st.repoHead := by
  unfold export_mod at h
  dsimp only at h
  repeat' split at h
  all_goals first
    | exact ⟨_, _, h, rfl⟩
    | exact absurd h (by simp)

theorem remove_mod_ok_reset {st st' : IndexerState} {id : String}
    (h : remove_mod st id = .ok st') :
    ∃ stMid msg, reset_and_commit stMid msg = .ok st' ∧ stMid.repoHead = st.repoHead := by
  unfold remove_mod at h
  dsimp only at h
  repeat' split at h
  all_goals first
    | exact ⟨_, _, h, rfl⟩
    | exact absurd h (by simp)

/-- A small initialized store used to instantiate the theorems: empty
working tree, a single root commit, HEAD on the branch. -/
def st0 : IndexerState :=
  { inited := true, rootDir := [], repoHead := .root "init" [], detached := false }

/-- The state `reset_and_commit st0 "m"` produces. -/
def stR : IndexerState :=
  { inited := true, rootDir := [], repoHead := .child "m" [] (.root "init" []) [],
    detached := false }

/-- An uninitialized store. -/
def stU : IndexerState :=
  { inited := false, rootDir := [], repoHead := .root "init" [], detached := false }

/-- Claim C1: after a successful squash (reset_and_commit) the branch history
counted from the root is exactly two commits — the original root commit
found by the first-parent walk from the tip, and one new tip whose sole
parent is that root and whose tree equals the current working tree — and
the same shape holds after every successful export_mod and remove_mod,
regardless of the prior history. -/
theorem claim1_squash_history :
    (∀ (st : IndexerState) (msg : String) (st' : IndexerState),
        reset_and_commit st msg = .ok st' →
          squashedHistory st.repoHead st' ∧ st'.rootDir = st.rootDir) ∧
    (∀ (st : IndexerState) (p : Option Package) (st' : IndexerState),
        export_mod st p = .ok st' → squashedHistory st.repoHead st') ∧
    (∀ (st : IndexerState) (id : String) (st' : IndexerState),
        remove_mod st id = .ok st' → squashedHistory st.repoHead st') := by
  refine ⟨fun st msg st' h => squashedHistory_of_reset h, ?_, ?_⟩
  · intro st p st' h
    obtain ⟨stMid, m, hr, hEq⟩ := export_mod_ok_reset h
    have hsq := (squashedHistory_of_reset hr).1
    rwa [hEq] at hsq
  · intro st id st' h
    obtain ⟨stMid, m, hr, hEq⟩ := remove_mod_ok_reset h
    have hsq := (squashedHistory_of_reset hr).1
    rwa [hEq] at hsq

/-- Witness for C1 at a concrete squash on the one-commit store. -/
theorem claim1_squash_history_witness :
    squashedHistory st0.repoHead stR ∧ stR.rootDir = st0.rootDir :=
  claim1_squash_history.1 st0 "m" stR rfl

/-- Claim C2: the derived major version is the first dot-delimited segment of
the version string with every literal letter v removed, and in particular
it maps v1.2.3 to 1, 2.0.0 to 2, and vv3.0 to 3. -/
theorem claim2_major_version :
    (∀ s : String, majorVersion s =
      String.mk ((s.toList.takeWhile (fun c => ¬ c = '.')).filter (fun c => ¬ c = 'v'))) ∧
    majorVersion "v1.2.3" = "1" ∧ majorVersion "2.0.0" = "2" ∧ majorVersion "vv3.0" = "3" := by
  refine ⟨fun s => ?_, by decide, by decide, by decide⟩
  unfold majorVersion
  rw [rsSplit_headD]

/-- Claim C7: removing an id that names no existing child of an initialized
store fails with the entry-not-found error and leaves the whole state
(store contents and branch history) untouched. -/
theorem claim7_remove_missing (st : IndexerState) (id : String)
    (hi : st.inited = true) (hn : findVal st.rootDir id = none) :
    remove_mod st id = .error (.entryNotFound, st) := by
  simp [remove_mod, hi, hn]

/-- Witness for C7: removing from the empty initialized store. -/
theorem claim7_remove_missing_witness :
    remove_mod st0 "missing" = .error (.entryNotFound, st0) :=
  claim7_remove_missing st0 "missing" rfl rfl

/-- Claim C9: the store is a one-way Uninitialized to Initialized state machine:
init refuses an already-existing store (touching nothing and cloning
nothing), otherwise installs the clone of the fork; and list, remove and
export all fail with not-initialized, leaving the state untouched, when
the store path does not exist. -/
theorem claim9_state_machine :
    (∀ (st : IndexerState) (c : Option CloneResult), st.inited = true →
        initIndexer st c = .error (.alreadyInitialized, st)) ∧
    (∀ (st : IndexerState) (c : CloneResult), st.inited = false →
        initIndexer st (some c) =
          .ok { inited := true, rootDir := c.tree, repoHead := c.head, detached := false }) ∧
    (∀ st : IndexerState, st.inited = false →
        (∀ p, export_mod st p = .error (.notInitialized, st)) ∧
        (∀ id, remove_mod st id = .error (.notInitialized, st)) ∧
        list_mods st = .error (.notInitialized, st)) := by
  refine ⟨fun st c h => ?_, fun st c h => ?_, fun st h => ⟨fun p => ?_, fun id => ?_, ?_⟩⟩
  · simp [initIndexer, h]
  · simp [initIndexer, h]
  · simp [export_mod, h]
  · simp [remove_mod, h]
  · simp [list_mods, h]

/-- Witness for C9: init refuses the initialized store, and removal from
an uninitialized store reports not-initialized. -/
theorem claim9_state_machine_witness :
    initIndexer st0 none = .error (.alreadyInitialized, st0) ∧
    remove_mod stU "x" = .error (.notInitialized, stU) :=
  ⟨claim9_state_machine.1 st0 none rfl, (claim9_state_machine.2.2 stU rfl).2.1 "x"⟩

/-- Claim C10: removal and export resolve their targets by joining the
unvalidated id (or id, at sign, major version) directly onto the store
root; an id holding dot-dot components therefore resolves, and would be
deleted or written, outside the store's entry directories. -/
theorem claim10_unvalidated_join :
    (∀ (root : RPath) (id : String), removeModTarget root id = pathJoin root id) ∧
    (∀ (root : RPath) (id major : String),
        exportModTarget root id major = pathJoin root (id ++ "@" ++ major)) ∧
    (∀ root : RPath, resolvePath root = root → ¬ root = [] →
        ¬ underRoot root (resolvePath (removeModTarget root ".."))) ∧
    resolvePath (removeModTarget ["home", "user", ".geode", "indexer"] "../clobber") =
      ["home", "user", ".geode", "clobber"] ∧
    resolvePath (exportModTarget ["home", "user", ".geode", "indexer"] "../evil" "1") =
      ["home", "user", ".geode", "evil@1"] := by
  refine ⟨fun _ _ => rfl, fun _ _ _ => rfl, ?_, by decide, by decide⟩
  rintro root hres hne ⟨t, ht⟩
  have h1 : removeModTarget root ".." = root ++ [".."] := rfl
  have h2 : resolvePath (root ++ [".."]) = root.dropLast := by
    unfold resolvePath at hres ⊢
    rw [List.foldl_append, hres]
    simp
  rw [h1, h2] at ht
  have hlen := congrArg List.length ht
  simp only [List.length_dropLast, List.length_append] at hlen
  have hpos : 0 < root.length := List.length_pos.mpr hne
  omega

/-- Witness for C10: a concrete two-component root escaped by a dot-dot
id. -/
theorem claim10_unvalidated_join_witness :
    ¬ underRoot ["a", "b"] (resolvePath (removeModTarget ["a", "b"] "..")) :=
  claim10_unvalidated_join.2.2.1 ["a", "b"] (by decide) (by decide)

theorem remove_mod_ok_inv {st st' : IndexerState} {id : String}
    (h : remove_mod st id = .ok st') :
    st.inited = true ∧ st.detached = false ∧
    (∃ files, findVal st.rootDir id = some (.dir files)) ∧
    st' = { st with
      rootDir := st.rootDir.filter (fun p => ¬ p.1 = id),
      repoHead := .child ("Remove " ++ id) (st.rootDir.filter (fun p => ¬ p.1 = id))
        (firstParentWalk st.repoHead) [] } := by
  unfold remove_mod at h
  dsimp only at h
  split at h
  · exact absurd h (by simp)
  · rename_i hinit
    split at h
    · exact absurd h (by simp)
    · exact absurd h (by simp)
    · rename_i node files hf
      obtain ⟨hdet, rfl⟩ := reset_and_commit_ok h
      exact ⟨by simpa using hinit, hdet, ⟨files, hf⟩, rfl⟩

theorem remove_mod_run {st : IndexerState} {id : String} {files : List (String × Bytes)}
    (hi : st.inited = true) (hd : st.detached = false)
    (hf : findVal st.rootDir id = some (.dir files)) :
    remove_mod st id = .ok { st with
      rootDir := st.rootDir.filter (fun p => ¬ p.1 = id),
      repoHead := .child ("Remove " ++ id) (st.rootDir.filter (fun p => ¬ p.1 = id))
        (firstParentWalk st.repoHead) [] } := by
  simp [remove_mod, reset_and_commit, hi, hd, hf]

/-- Claim C6: removal matches the literal directory name passed in, so on an
initialized store with HEAD on the branch it succeeds exactly when a
directory of that exact name exists under the store root; on success the
directory is deleted (every other child untouched) and the squash commits
the message Remove id. -/
theorem claim6_remove_literal (st : IndexerState) (id : String)
    (hi : st.inited = true) (hd : st.detached = false) :
    ((∃ st', remove_mod st id = .ok st') ↔
      (∃ files, findVal st.rootDir id = some (.dir files))) ∧
    (∀ st', remove_mod st id = .ok st' →
        st'.repoHead.msg = "Remove " ++ id ∧
        findVal st'.rootDir id = none ∧
        (∀ n, ¬ n = id → findVal st'.rootDir n = findVal st.rootDir n)) := by
  constructor
  · constructor
    · rintro ⟨st', h⟩
      exact (remove_mod_ok_inv h).2.2.1
    · rintro ⟨files, hf⟩
      exact ⟨_, remove_mod_run hi hd hf⟩
  · intro st' h
    obtain ⟨-, -, -, rfl⟩ := remove_mod_ok_inv h
    exact ⟨rfl, findVal_filterKey_self id st.rootDir,
      fun n hn => findVal_filterKey_ne id n hn st.rootDir⟩

/-- A one-entry initialized store holding the entry some.mod at major
version 1 with an exported artifact. -/
def st1 : IndexerState :=
  { inited := true,
    rootDir := [("some.mod@1", .dir [("mod.geode", [7, 7])])],
    repoHead := .root "init" [], detached := false }

/-- Witness for C6: on the one-entry store, removal succeeds exactly at
the literal key, and removal of the stored entry deletes it and commits
the removal message. -/
theorem claim6_remove_literal_witness :
    ((∃ st', remove_mod st1 "some.mod@1" = .ok st') ↔
      (∃ files, findVal st1.rootDir "some.mod@1" = some (.dir files))) ∧
    (∀ st', remove_mod st1 "some.mod@1" = .ok st' →
        st'.repoHead.msg = "Remove " ++ "some.mod@1" ∧
        findVal st'.rootDir "some.mod@1" = none ∧
        (∀ n, ¬ n = "some.mod@1" → findVal st'.rootDir n = findVal st1.rootDir n)) :=
  claim6_remove_literal st1 "some.mod@1" rfl rfl

/-- The directory predicate `list_mods` filters with: the child is a
directory holding a file named mod.geode. -/
def hasArtifact (p : String × Node) : Bool :=
  match p.2 with
  | .dir files => (findVal files "mod.geode").isSome
  | .file _ => false

theorem list_mods_filter (st : IndexerState) (hi : st.inited = true) :
    list_mods st = .ok ((st.rootDir.filter hasArtifact).map Prod.fst) := by
  simp only [list_mods, hi, Bool.not_true, if_neg]
  rfl

theorem mem_map_fst_of_filter {α : Type} {p : String × α → Bool} {n : String} :
    (l : List (String × α)) →
      n ∈ (l.filter p).map Prod.fst → n ∈ l.map Prod.fst := by
  intro l h
  simp only [List.mem_map] at h ⊢
  obtain ⟨x, hx, rfl⟩ := h
  exact ⟨x, (List.mem_filter.mp hx).1, rfl⟩

theorem mem_entryNames (n : String) :
    (l : FS) → keysNodup l →
      ((n ∈ (l.filter hasArtifact).map Prod.fst) ↔
        ∃ files, findVal l n = some (.dir files) ∧
          (findVal files "mod.geode").isSome = true)
  | [], _ => by simp [findVal]
  | (a1, a2) :: t, hnd => by
    have h1 : ¬ a1 ∈ t.map Prod.fst := (List.nodup_cons.mp hnd).1
    have hnd' : keysNodup t := (List.nodup_cons.mp hnd).2
    have ih := mem_entryNames n t hnd'
    cases a2 with
    | file b =>
      have hfil : List.filter hasArtifact ((a1, Node.file b) :: t) =
          List.filter hasArtifact t := by
        simp [List.filter_cons, hasArtifact]
      rw [hfil]
      by_cases hn : a1 = n
      · subst hn
        simp only [findVal, if_pos rfl]
        constructor
        · intro hmem
          exact absurd (mem_map_fst_of_filter t hmem) h1
        · rintro ⟨files, hfe, -⟩
          exact absurd hfe (by simp)
      · simp only [findVal, if_neg hn]
        exact ih
    | dir files =>
      by_cases hb : (findVal files "mod.geode").isSome = true
      · have hfil : List.filter hasArtifact ((a1, Node.dir files) :: t) =
            (a1, Node.dir files) :: List.filter hasArtifact t := by
          simp [List.filter_cons, hasArtifact, hb]
        rw [hfil]
        by_cases hn : a1 = n
        · subst hn
          simp only [findVal, if_pos rfl, List.map_cons, List.mem_cons]
          constructor
          · intro _
            exact ⟨files, rfl, hb⟩
          · intro _
            simp
        · simp only [findVal, if_neg hn, List.map_cons, List.mem_cons]
          rw [ih]
          constructor
          · rintro (h | h)
            · exact absurd h.symm hn
            · exact h
          · exact fun h => Or.inr h
      · have hfil : List.filter hasArtifact ((a1, Node.dir files) :: t) =
            List.filter hasArtifact t := by
          simp [List.filter_cons, hasArtifact, hb]
        rw [hfil]
        by_cases hn : a1 = n
        · subst hn
          simp only [findVal, if_pos rfl]
          constructor
          · intro hmem
            exact absurd (mem_map_fst_of_filter t hmem) h1
          · rintro ⟨files', hfe, hs⟩
            obtain rfl : files = files' := by
              simpa using hfe
            exact absurd hs hb
        · simp only [findVal, if_neg hn]
          exact ih

/-- Claim C8: on an initialized store, list_mods produces exactly the names of
the immediate subdirectories of the store root that contain a file named
mod.geode; children lacking one, and plain top-level files, are
excluded. -/
theorem claim8_list_entries (st : IndexerState) (names : List String)
    (hi : st.inited = true) (hnd : keysNodup st.rootDir)
    (hl : list_mods st = .ok names) :
    ∀ n, n ∈ names ↔
      ∃ files, findVal st.rootDir n = some (.dir files) ∧
        (findVal files "mod.geode").isSome = true := by
  intro n
  have hn : names = (st.rootDir.filter hasArtifact).map Prod.fst := by
    have := list_mods_filter st hi
    rw [hl] at this
    exact Except.ok.inj this
  rw [hn]
  exact mem_entryNames n st.rootDir hnd

/-- A store with one valid entry, one artifact-less directory, and one
stray top-level file. -/
def st2 : IndexerState :=
  { inited := true,
    rootDir := [("good.mod@2", .dir [("mod.geode", [1])]),
                ("stray", .dir []),
                ("note.txt", .file [2])],
    repoHead := .root "init" [], detached := false }

/-- Witness for C8: the mixed store lists exactly its one valid entry. -/
theorem claim8_list_entries_witness :
    ("good.mod@2" ∈ ["good.mod@2"] ↔
      ∃ files, findVal st2.rootDir "good.mod@2" = some (.dir files) ∧
        (findVal files "mod.geode").isSome = true) ∧
    ("stray" ∈ ["good.mod@2"] ↔
      ∃ files, findVal st2.rootDir "stray" = some (.dir files) ∧
        (findVal files "mod.geode").isSome = true) :=
  ⟨claim8_list_entries st2 ["good.mod@2"] rfl (by decide) rfl "good.mod@2",
   claim8_list_entries st2 ["good.mod@2"] rfl (by decide) rfl "stray"⟩

/-- The state a successful export leaves behind: the entry directory bound
under the target name with the given files, and the squashed commit with
the add-or-update message. -/
def exportedState (st : IndexerState) (dirName : String)
    (files : List (String × Bytes)) (mod_id : String) : IndexerState :=
  { st with
    rootDir := setVal st.rootDir dirName (.dir files),
    repoHead := .child ("Add/Update " ++ mod_id) (setVal st.rootDir dirName (.dir files))
      (firstParentWalk st.repoHead) [] }

theorem export_mod_run_new {st : IndexerState} {pkg : Package} {vstr mod_id : String}
    (hi : st.inited = true) (hd : st.detached = false)
    (hv : findVal pkg.modJson "version" = some (.str vstr))
    (hid : findVal pkg.modJson "id" = some (.str mod_id))
    (hcur : findVal st.rootDir (mod_id ++ "@" ++ majorVersion vstr) = none) :
    export_mod st (some pkg) =
      .ok (exportedState st (mod_id ++ "@" ++ majorVersion vstr)
        [("mod.geode", pkg.bytes)] mod_id) := by
  simp [export_mod, reset_and_commit, exportedState, hi, hd, hv, hid, hcur]

theorem export_mod_run_existing {st : IndexerState} {pkg : Package} {vstr mod_id : String}
    {files : List (String × Bytes)}
    (hi : st.inited = true) (hd : st.detached = false)
    (hv : findVal pkg.modJson "version" = some (.str vstr))
    (hid : findVal pkg.modJson "id" = some (.str mod_id))
    (hcur : findVal st.rootDir (mod_id ++ "@" ++ majorVersion vstr) = some (.dir files)) :
    export_mod st (some pkg) =
      .ok (exportedState st (mod_id ++ "@" ++ majorVersion vstr)
        (setVal files "mod.geode" pkg.bytes) mod_id) := by
  simp [export_mod, reset_and_commit, exportedState, hi, hd, hv, hid, hcur]

theorem firstParentChain_child (m : String) (t : FS) (c : Commit) :
    firstParentChain (.child m t (firstParentWalk c) []) =
      [.child m t (firstParentWalk c) [], firstParentWalk c] := by
  show _ :: firstParentChain (firstParentWalk c) = _
  rw [firstParentChain_walk]

/-- Claim C5: a successful export targets the directory named exactly id, at
sign, major version under the store root, creating it when absent and
reusing it when present, copies the archive there as mod.geode
(overwriting any prior artifact), touches no other child, and squashes
with the message Add/Update id. -/
theorem claim5_export_target (st : IndexerState) (pkg : Package) (vstr mod_id : String)
    (hi : st.inited = true) (hd : st.detached = false)
    (hv : findVal pkg.modJson "version" = some (.str vstr))
    (hid : findVal pkg.modJson "id" = some (.str mod_id))
    (hnf : ∀ b, ¬ findVal st.rootDir (mod_id ++ "@" ++ majorVersion vstr) = some (.file b)) :
    ∃ st', export_mod st (some pkg) = .ok st' ∧
      st'.repoHead.msg = "Add/Update " ++ mod_id ∧
      (∃ files, findVal st'.rootDir (mod_id ++ "@" ++ majorVersion vstr) = some (.dir files) ∧
        findVal files "mod.geode" = some pkg.bytes) ∧
      (∀ n, ¬ n = mod_id ++ "@" ++ majorVersion vstr →
        findVal st'.rootDir n = findVal st.rootDir n) := by
  cases hcur : findVal st.rootDir (mod_id ++ "@" ++ majorVersion vstr) with
  | none =>
    refine ⟨_, export_mod_run_new hi hd hv hid hcur, rfl,
      ⟨[("mod.geode", pkg.bytes)], findVal_setVal_self _ _ _, by simp [findVal]⟩,
      fun n hn => findVal_setVal_ne _ _ _ hn _⟩
  | some node =>
    cases node with
    | file b => exact absurd hcur (hnf b)
    | dir files =>
      exact ⟨_, export_mod_run_existing hi hd hv hid hcur, rfl,
        ⟨setVal files "mod.geode" pkg.bytes, findVal_setVal_self _ _ _,
          findVal_setVal_self _ _ _⟩,
        fun n hn => findVal_setVal_ne _ _ _ hn _⟩

/-- The example package of the spec: id geode.loader, version v1.2.3,
archive bytes 1 2 3. -/
def pkg0 : Package :=
  { bytes := [1, 2, 3],
    modJson := [("version", .str "v1.2.3"), ("id", .str "geode.loader")] }

/-- Witness for C5: exporting the example package into the empty
initialized store. -/
theorem claim5_export_target_witness :
    ∃ st', export_mod st0 (some pkg0) = .ok st' ∧
      st'.repoHead.msg = "Add/Update " ++ "geode.loader" ∧
      (∃ files,
        findVal st'.rootDir ("geode.loader" ++ "@" ++ majorVersion "v1.2.3") =
          some (.dir files) ∧
        findVal files "mod.geode" = some pkg0.bytes) ∧
      (∀ n, ¬ n = "geode.loader" ++ "@" ++ majorVersion "v1.2.3" →
        findVal st'.rootDir n = findVal st0.rootDir n) :=
  claim5_export_target st0 pkg0 "v1.2.3" "geode.loader" rfl rfl (by decide) (by decide)
    (fun b h => by simp [st0, findVal] at h)

/-- Claim C4: exporting the same archive twice in a row is idempotent on the
store content — the whole store root is identical after the first and the
second export — and each export leaves the history at exactly two commits,
the new tip sitting directly on the original root. -/
theorem claim4_export_idempotent (st : IndexerState) (pkg : Package) (vstr mod_id : String)
    (hi : st.inited = true) (hd : st.detached = false)
    (hv : findVal pkg.modJson "version" = some (.str vstr))
    (hid : findVal pkg.modJson "id" = some (.str mod_id))
    (hnf : ∀ b, ¬ findVal st.rootDir (mod_id ++ "@" ++ majorVersion vstr) = some (.file b)) :
    ∃ st1 st2, export_mod st (some pkg) = .ok st1 ∧ export_mod st1 (some pkg) = .ok st2 ∧
      st2.rootDir = st1.rootDir ∧
      firstParentChain st1.repoHead = [st1.repoHead, firstParentWalk st.repoHead] ∧
      firstParentChain st2.repoHead = [st2.repoHead, firstParentWalk st.repoHead] := by
  cases hcur : findVal st.rootDir (mod_id ++ "@" ++ majorVersion vstr) with
  | none =>
    have hF : setVal [("mod.geode", pkg.bytes)] "mod.geode" pkg.bytes =
        [("mod.geode", pkg.bytes)] := by
      simp [setVal]
    refine ⟨_, _, export_mod_run_new hi hd hv hid hcur,
      export_mod_run_existing hi hd hv hid (findVal_setVal_self _ _ _), ?_, ?_, ?_⟩
    · simp only [exportedState]
      rw [hF]
      exact setVal_setVal_self _ _ _ _
    · exact firstParentChain_child _ _ _
    · simp only [exportedState]
      rw [show firstParentWalk (Commit.child ("Add/Update " ++ mod_id)
          (setVal st.rootDir (mod_id ++ "@" ++ majorVersion vstr)
            (.dir [("mod.geode", pkg.bytes)]))
          (firstParentWalk st.repoHead) []) = firstParentWalk st.repoHead
        from firstParentWalk_walk st.repoHead]
      exact firstParentChain_child _ _ _
  | some node =>
    cases node with
    | file b => exact absurd hcur (hnf b)
    | dir files =>
      have hF : setVal (setVal files "mod.geode" pkg.bytes) "mod.geode" pkg.bytes =
          setVal files "mod.geode" pkg.bytes :=
        setVal_setVal_self _ _ _ _
      refine ⟨_, _, export_mod_run_existing hi hd hv hid hcur,
        export_mod_run_existing hi hd hv hid (findVal_setVal_self _ _ _), ?_, ?_, ?_⟩
      · simp only [exportedState]
        rw [hF]
        exact setVal_setVal_self _ _ _ _
      · exact firstParentChain_child _ _ _
      · simp only [exportedState]
        rw [show firstParentWalk (Commit.child ("Add/Update " ++ mod_id)
            (setVal st.rootDir (mod_id ++ "@" ++ majorVersion vstr)
              (.dir (setVal files "mod.geode" pkg.bytes)))
            (firstParentWalk st.repoHead) []) = firstParentWalk st.repoHead
          from firstParentWalk_walk st.repoHead]
        exact firstParentChain_child _ _ _

/-- Witness for C4: the double export of the example package on the empty
initialized store. -/
theorem claim4_export_idempotent_witness :
    ∃ st1 st2, export_mod st0 (some pkg0) = .ok st1 ∧
      export_mod st1 (some pkg0) = .ok st2 ∧
      st2.rootDir = st1.rootDir ∧
      firstParentChain st1.repoHead = [st1.repoHead, firstParentWalk st0.repoHead] ∧
      firstParentChain st2.repoHead = [st2.repoHead, firstParentWalk st0.repoHead] :=
  claim4_export_idempotent st0 pkg0 "v1.2.3" "geode.loader" rfl rfl (by decide) (by decide)
    (fun b h => by simp [st0, findVal] at h)

/-- A package whose version string is empty, so its derived major version
is empty. -/
def pkgE : Package :=
  { bytes := [9], modJson := [("version", .str ""), ("id", .str "m")] }

/-- Counterexample for C3: exporting a package whose derived major version
is empty does not fail — it succeeds and creates the entry directory m@
with the artifact inside. -/
theorem claim3_counterexample :
    ∃ st', export_mod st0 (some pkgE) = .ok st' ∧
      findVal st'.rootDir "m@" = some (.dir [("mod.geode", [9])]) :=
  ⟨_, rfl, by decide⟩

/-- C3 as amended: export_mod performs no emptiness check on the derived
major version; with an empty major version it succeeds, creating the entry
directory named id followed by a bare at sign (when absent) and copying
the artifact into it. -/
theorem claim3_empty_major (st : IndexerState) (pkg : Package) (vstr mod_id : String)
    (hi : st.inited = true) (hd : st.detached = false)
    (hv : findVal pkg.modJson "version" = some (.str vstr))
    (hempty : majorVersion vstr = "")
    (hid : findVal pkg.modJson "id" = some (.str mod_id))
    (hnone : findVal st.rootDir (mod_id ++ "@") = none) :
    ∃ st', export_mod st (some pkg) = .ok st' ∧
      findVal st'.rootDir (mod_id ++ "@") = some (.dir [("mod.geode", pkg.bytes)]) := by
  have hdn : mod_id ++ "@" ++ majorVersion vstr = mod_id ++ "@" := by
    rw [hempty, String.append_empty]
  refine ⟨_, export_mod_run_new hi hd hv hid (by rw [hdn]; exact hnone), ?_⟩
  show findVal (setVal st.rootDir (mod_id ++ "@" ++ majorVersion vstr) _) (mod_id ++ "@") = _
  rw [hdn]
  exact findVal_setVal_self _ _ _

/-- Witness for the amended C3: the empty-version package exported into
the empty initialized store. -/
theorem claim3_empty_major_witness :
    ∃ st', export_mod st0 (some pkgE) = .ok st' ∧
      findVal st'.rootDir ("m" ++ "@") = some (.dir [("mod.geode", pkgE.bytes)]) :=
  claim3_empty_major st0 pkgE "" "m" rfl rfl (by decide) (by decide) (by decide) rfl

end GeodeIndexer
